import Mathlib

/-!
Shallow embedding of `src/main.py` (hospital billing system).

Modelling choices:
* Python `float` prices are modelled as `ℚ` (exact decimal arithmetic; all
  claims are about exact sums and field equality).
* Python `dict` registries (which preserve insertion order) are modelled as
  association lists `List (Nat × α)`; `dictInsert` replaces in place when the
  key is present and appends otherwise, matching CPython dict semantics.
* The JSON file is modelled structurally by `SaveData`; the per-record
  dictionaries carry exactly the fields that `to_dict` writes, so the dict
  form of `Patient` and `Service` is the record itself, and the dict form of
  `Bill` is a `Bill` value whose `total_amount` field is the stored number.
* `datetime.now()` is modelled by passing the date string as an argument to
  `create_bill`.
* `print` side effects are dropped; a Python function with no `return`
  returns `None`, modelled as an `Option` result that is `none`.
-/

namespace HospitalBilling

/-- `Patient` (src/main.py lines 7-28): id, name, contact. -/
structure Patient where
  patient_id : Nat
  name : String
  contact : String
deriving DecidableEq, Repr

/-- `Patient.to_dict`: writes exactly the three fields, so it is the identity
on the structural dict representation. -/
def Patient.to_dict (p : Patient) : Patient := p

/-- `Patient.from_dict`. -/
def Patient.from_dict (d : Patient) : Patient := d

/-- `Service` (src/main.py lines 30-51): id, name, price. -/
structure Service where
  service_id : Nat
  name : String
  price : ℚ
deriving DecidableEq, Repr

/-- `Service.to_dict`. -/
def Service.to_dict (s : Service) : Service := s

/-- `Service.from_dict`. -/
def Service.from_dict (d : Service) : Service := d

/-- `Bill` (src/main.py lines 53-91).  The `total_amount` field is a plain
stored field; the constructor `Bill.make` below is what recomputes it. -/
structure Bill where
  bill_id : Nat
  patient_id : Nat
  services_rendered : List Service
  bill_date : String
  total_amount : ℚ
deriving DecidableEq, Repr

/-- `Bill.calculate_total` (src/main.py lines 62-64): sum of the line-item
prices, in order. -/
def calculate_total (services : List Service) : ℚ :=
  (services.map Service.price).sum

/-- `Bill.__init__` (src/main.py lines 55-60): stores the four arguments and
sets `total_amount := self.calculate_total()`. -/
def Bill.make (bill_id : Nat) (patient_id : Nat) (services_rendered : List Service)
    (bill_date : String) : Bill :=
  { bill_id := bill_id
    patient_id := patient_id
    services_rendered := services_rendered
    bill_date := bill_date
    total_amount := calculate_total services_rendered }

/-- `Bill.to_dict` (src/main.py lines 66-74): writes all five fields,
including the current `total_amount`, so it is the identity on the structural
dict representation. -/
def Bill.to_dict (b : Bill) : Bill := b

/-- `Bill.from_dict` (src/main.py lines 76-81): rebuilds the embedded service
snapshots and calls the constructor `Bill(...)` with the four non-derived
fields; the stored `total_amount` of the dict is never read. -/
def Bill.from_dict (d : Bill) : Bill :=
  Bill.make d.bill_id d.patient_id (d.services_rendered.map Service.from_dict) d.bill_date

/-! ### Python dict on integer keys, as an insertion-ordered association list -/

/-- Key membership, `k in d`. -/
def dictContains (l : List (Nat × α)) (k : Nat) : Bool :=
  l.any (fun kv => kv.1 == k)

/-- `d.get(k)`: the value stored at `k`, if any (first occurrence; keys of a
Python dict are unique, so this is the only occurrence). -/
def dictGet : List (Nat × α) → Nat → Option α
  | [], _ => none
  | kv :: rest, k => if kv.1 == k then some kv.2 else dictGet rest k

/-- `d[k] = v`: replace in place when the key exists, else append. -/
def dictInsert (l : List (Nat × α)) (k : Nat) (v : α) : List (Nat × α) :=
  if dictContains l k then l.map (fun kv => if kv.1 == k then (k, v) else kv)
  else l ++ [(k, v)]

/-- `d.values()`, in insertion order. -/
def dictValues (l : List (Nat × α)) : List α := l.map Prod.snd

/-- `d.keys()`, in insertion order. -/
def dictKeys (l : List (Nat × α)) : List Nat := l.map Prod.fst

/-- A dict comprehension `{k(x): v(x) for x in xs}`: left-to-right insertion,
later occurrences of a duplicate key overwrite the earlier value in place. -/
def dictOfPairs (ps : List (Nat × α)) : List (Nat × α) :=
  ps.foldl (fun acc kv => dictInsert acc kv.1 kv.2) []

/-- Python `max(l + [1])`. -/
def pyListMax (l : List Nat) : Nat := l.foldl max 1

/-! ### The store and its file -/

/-- The JSON document written by `save_data` / read by `load_data`:
top-level arrays `patients`, `services`, `bills`. -/
structure SaveData where
  patients : List Patient
  services : List Service
  bills : List Bill
deriving DecidableEq, Repr

/-- `HospitalBillingSystem`'s in-memory state (src/main.py lines 95-105):
three insertion-ordered registries and three next-id counters. -/
structure HospitalBillingSystem where
  patients : List (Nat × Patient)
  services : List (Nat × Service)
  bills : List (Nat × Bill)
  next_patient_id : Nat
  next_service_id : Nat
  next_bill_id : Nat
deriving DecidableEq, Repr

/-- `__init__` followed by `load_data` (src/main.py lines 97-127).  The
argument is the content of the backing file: `none` when the file does not
exist.  When the file exists, each registry is rebuilt by a dict
comprehension keyed on the record's own id, and each counter is set to
`max(keys + [1]) + 1`. -/
def load_data (file : Option SaveData) : HospitalBillingSystem :=
  match file with
  | none =>
    { patients := [], services := [], bills := []
      next_patient_id := 1, next_service_id := 1, next_bill_id := 1 }
  | some data =>
    let patients := dictOfPairs (data.patients.map (fun p => (p.patient_id, Patient.from_dict p)))
    let services := dictOfPairs (data.services.map (fun s => (s.service_id, Service.from_dict s)))
    let bills := dictOfPairs (data.bills.map (fun b => (b.bill_id, Bill.from_dict b)))
    { patients := patients, services := services, bills := bills
      next_patient_id := pyListMax (dictKeys patients) + 1
      next_service_id := pyListMax (dictKeys services) + 1
      next_bill_id := pyListMax (dictKeys bills) + 1 }

/-- `save_data` (src/main.py lines 129-138): serialize the three registries,
values only, in insertion order. -/
def save_data (s : HospitalBillingSystem) : SaveData :=
  { patients := (dictValues s.patients).map Patient.to_dict
    services := (dictValues s.services).map Service.to_dict
    bills := (dictValues s.bills).map Bill.to_dict }

/-- `add_patient` (src/main.py lines 141-146).  The Python method stores the
new patient and increments the counter but has no `return` statement, so its
Python return value is `None`: the second component is that return value. -/
def add_patient (s : HospitalBillingSystem) (name contact : String) :
    HospitalBillingSystem × Option Patient :=
  let patient_id := s.next_patient_id
  let patient : Patient := { patient_id := patient_id, name := name, contact := contact }
  ({ s with patients := dictInsert s.patients patient_id patient
            next_patient_id := s.next_patient_id + 1 }, none)

/-- `get_patient` (src/main.py lines 148-149). -/
def get_patient (s : HospitalBillingSystem) (patient_id : Nat) : Option Patient :=
  dictGet s.patients patient_id

/-- `add_service` (src/main.py lines 159-164); like `add_patient`, the Python
method returns `None`. -/
def add_service (s : HospitalBillingSystem) (name : String) (price : ℚ) :
    HospitalBillingSystem × Option Service :=
  let service_id := s.next_service_id
  let service : Service := { service_id := service_id, name := name, price := price }
  ({ s with services := dictInsert s.services service_id service
            next_service_id := s.next_service_id + 1 }, none)

/-- `get_service` (src/main.py lines 166-167). -/
def get_service (s : HospitalBillingSystem) (service_id : Nat) : Option Service :=
  dictGet s.services service_id

/-- The resolution loop of `create_bill` (src/main.py lines 182-188): start
from the empty list and, for each id in order, append the registry entry when
the lookup succeeds and skip the id (with a printed warning) otherwise. -/
def resolve_services (s : HospitalBillingSystem) (service_ids : List Nat) : List Service :=
  service_ids.foldl (fun acc s_id =>
    match get_service s s_id with
    | some service => acc ++ [service]
    | none => acc) []

/-- `create_bill` (src/main.py lines 177-200).  `bill_date` stands for
`datetime.now().strftime(...)`.  Returns the updated state together with the
Python return value (`None` on failure, the new bill on success).
`if not services_to_bill` is Python list truthiness, i.e. an emptiness
test. -/
def create_bill (s : HospitalBillingSystem) (patient_id : Nat) (service_ids : List Nat)
    (bill_date : String) : HospitalBillingSystem × Option Bill :=
  if ¬ dictContains s.patients patient_id then (s, none)
  else
    let services_to_bill := resolve_services s service_ids
    if services_to_bill.isEmpty then (s, none)
    else
      let bill_id := s.next_bill_id
      let bill := Bill.make bill_id patient_id services_to_bill bill_date
      ({ s with bills := dictInsert s.bills bill_id bill
                next_bill_id := s.next_bill_id + 1 }, some bill)

/-- `get_bill` (src/main.py lines 202-203). -/
def get_bill (s : HospitalBillingSystem) (bill_id : Nat) : Option Bill :=
  dictGet s.bills bill_id

/-- `add_patient` iterated over a list of (name, contact) pairs. -/
def add_patients (s : HospitalBillingSystem) (entries : List (String × String)) :
    HospitalBillingSystem :=
  entries.foldl (fun t e => (add_patient t e.1 e.2).1) s

/-- `add_service` iterated over a list of (name, price) pairs. -/
def add_services (s : HospitalBillingSystem) (entries : List (String × ℚ)) :
    HospitalBillingSystem :=
  entries.foldl (fun t e => (add_service t e.1 e.2).1) s

/-- The store states reachable through the public operations: a fresh store
(backing file absent), closed under `add_patient`, `add_service`,
`create_bill`, and a save followed by a reload of the saved file. -/
inductive Reachable : HospitalBillingSystem → Prop where
  | fresh : Reachable (load_data none)
  | save_load {s} : Reachable s → Reachable (load_data (some (save_data s)))
  | patient_step {s} (name contact : String) :
      Reachable s → Reachable (add_patient s name contact).1
  | service_step {s} (name : String) (price : ℚ) :
      Reachable s → Reachable (add_service s name price).1
  | bill_step {s} (pid : Nat) (sids : List Nat) (date : String) :
      Reachable s → Reachable (create_bill s pid sids date).1

/-! ### Concrete stores and files used to instantiate the theorems -/

/-- The store of the spec's worked example: patient 1 plus
Service(1, "X-Ray", 100.0) and Service(2, "Consult", 50.0), built through the
public operations. -/
def demoStore : HospitalBillingSystem :=
  (add_service (add_service (add_patient (load_data none) "John" "555-0100").1
    "X-Ray" 100).1 "Consult" 50).1

/-- `demoStore` after one successful `create_bill`, so its bill registry is
non-empty. -/
def billStore : HospitalBillingSystem :=
  (create_bill demoStore 1 [1] "2024-01-02 11:00:00").1

/-- A persisted bill dict whose stored `total_amount` (999) disagrees with
the sum of its line-item prices (150). -/
def tamperedBill : Bill :=
  { bill_id := 7, patient_id := 1,
    services_rendered := [{ service_id := 1, name := "X-Ray", price := 150 }]
    bill_date := "2024-01-01 10:00:00", total_amount := 999 }

/-- A backing file containing only `tamperedBill`. -/
def tamperedFile : SaveData :=
  { patients := [], services := [], bills := [tamperedBill] }

/-- A second hand-edited bill dict: stored total 500, line items sum to 30. -/
def driftBill : Bill :=
  { bill_id := 3, patient_id := 2,
    services_rendered := [{ service_id := 1, name := "ECG", price := 10 },
                          { service_id := 2, name := "Lab", price := 20 }]
    bill_date := "2024-02-02 09:30:00", total_amount := 500 }

/-- A backing file containing only `driftBill`. -/
def driftFile : SaveData :=
  { patients := [], services := [], bills := [driftBill] }

/-- The invariant of one registry: every stored record carries its own key,
keys are distinct, all keys are below the next-id counter, the counter is
`max(keys + [1]) + 1` whenever the registry is non-empty, and the counter is
at least 1. -/
structure RegInv (l : List (Nat × α)) (key : α → Nat) (next : Nat) : Prop where
  key_con : ∀ kv ∈ l, key kv.2 = kv.1
  nodup : (dictKeys l).Nodup
  lt_next : ∀ k ∈ dictKeys l, k < next
  next_eq : l ≠ [] → next = pyListMax (dictKeys l) + 1
  one_le : 1 ≤ next

/-- The store invariant maintained by every public operation: `RegInv` for
the three registries, and every stored bill has its total equal to the sum of
its line-item prices and a non-empty line-item list. -/
def Inv (s : HospitalBillingSystem) : Prop :=
  RegInv s.patients Patient.patient_id s.next_patient_id ∧
  RegInv s.services Service.service_id s.next_service_id ∧
  RegInv s.bills Bill.bill_id s.next_bill_id ∧
  ∀ kv ∈ s.bills, kv.2.total_amount = calculate_total kv.2.services_rendered ∧
    kv.2.services_rendered ≠ []

/-! ### Lemmas about the dict model -/

theorem dictContains_iff_mem {l : List (Nat × α)} {k : Nat} :
    dictContains l k = true ↔ k ∈ dictKeys l := by
  simp [dictContains, dictKeys, List.any_eq_true, List.mem_map]

theorem dictContains_false_iff {l : List (Nat × α)} {k : Nat} :
    dictContains l k = false ↔ k ∉ dictKeys l := by
  rw [← Bool.not_eq_true, not_iff_not]
  exact dictContains_iff_mem

theorem dictKeys_append (l t : List (Nat × α)) :
    dictKeys (l ++ t) = dictKeys l ++ dictKeys t := by
  simp [dictKeys]

theorem dictInsert_of_not_mem {l : List (Nat × α)} {k : Nat} (v : α)
    (h : k ∉ dictKeys l) : dictInsert l k v = l ++ [(k, v)] := by
  have hc : dictContains l k = false := dictContains_false_iff.mpr h
  simp [dictInsert, hc]

theorem dictKeys_dictInsert_of_mem {l : List (Nat × α)} {k : Nat} (v : α)
    (h : k ∈ dictKeys l) : dictKeys (dictInsert l k v) = dictKeys l := by
  have hc : dictContains l k = true := dictContains_iff_mem.mpr h
  simp only [dictInsert, hc, if_true, dictKeys, List.map_map]
  apply List.map_congr_left
  intro kv _
  by_cases hk : kv.1 = k
  · simp [hk]
  · simp [hk]

theorem dictGet_append_right {l : List (Nat × α)} {k : Nat}
    (h : k ∉ dictKeys l) (t : List (Nat × α)) :
    dictGet (l ++ t) k = dictGet t k := by
  induction l with
  | nil => rfl
  | cons kv rest ih =>
    have hk : kv.1 ≠ k := by
      intro hk
      exact h (by simp [dictKeys, hk])
    have hrest : k ∉ dictKeys rest := by
      intro hm
      exact h (by simp [dictKeys] at hm ⊢; exact Or.inr hm)
    simp [dictGet, hk, ih hrest]

theorem dictGet_dictInsert_self {l : List (Nat × α)} (k : Nat) (v : α) :
    dictGet (dictInsert l k v) k = some v := by
  by_cases h : k ∈ dictKeys l
  · have hc : dictContains l k = true := dictContains_iff_mem.mpr h
    simp only [dictInsert, hc, if_true]
    induction l with
    | nil => simp [dictKeys] at h
    | cons kv rest ih =>
      by_cases hk : kv.1 = k
      · simp [dictGet, hk]
      · have hm : k ∈ dictKeys rest := by
          simp [dictKeys] at h
          rcases h with h | h
          · exact absurd h.symm hk
          · simpa [dictKeys] using h
        simpa [dictGet, hk] using ih hm (dictContains_iff_mem.mpr hm)
  · rw [dictInsert_of_not_mem v h, dictGet_append_right h]
    simp [dictGet]

theorem dictGet_eq_none_iff {l : List (Nat × α)} {k : Nat} :
    dictGet l k = none ↔ k ∉ dictKeys l := by
  induction l with
  | nil => simp [dictGet, dictKeys]
  | cons kv rest ih =>
    by_cases hk : kv.1 = k
    · simp [dictGet, hk, dictKeys]
    · simp [dictGet, hk, dictKeys, ih, Ne.symm hk]

/-! ### Lemmas about `pyListMax` -/

theorem le_foldl_max_init (l : List Nat) (b : Nat) : b ≤ l.foldl max b := by
  induction l generalizing b with
  | nil => exact Nat.le_refl b
  | cons a t ih => exact le_trans (Nat.le_max_left b a) (ih (max b a))

theorem le_foldl_max_of_mem {l : List Nat} {x : Nat} (h : x ∈ l) (b : Nat) :
    x ≤ l.foldl max b := by
  induction l generalizing b with
  | nil => simp at h
  | cons a t ih =>
    rcases List.mem_cons.mp h with rfl | h'
    · exact le_trans (Nat.le_max_right b x) (le_foldl_max_init t _)
    · exact ih h' _


theorem foldl_max_le {l : List Nat} {n : Nat} (b : Nat) (hb : b ≤ n)
    (h : ∀ x ∈ l, x ≤ n) : l.foldl max b ≤ n := by
  induction l generalizing b with
  | nil => exact hb
  | cons a t ih =>
    exact ih _ (max_le hb (h a (List.mem_cons_self a t)))
      (fun x hx => h x (List.mem_cons_of_mem _ hx))

theorem foldl_max_keys_dictInsert (l : List (Nat × α)) (k : Nat) (v : α) (b : Nat) :
    (dictKeys (dictInsert l k v)).foldl max b = max ((dictKeys l).foldl max b) k := by
  by_cases h : k ∈ dictKeys l
  · rw [dictKeys_dictInsert_of_mem v h]
    exact (max_eq_left (le_foldl_max_of_mem h b)).symm
  · rw [dictInsert_of_not_mem v h, dictKeys_append]
    simp [List.foldl_append, dictKeys]

theorem foldl_max_keys_fold_aux (ps : List (Nat × α)) (b : Nat) :
    ∀ acc : List (Nat × α),
      (dictKeys (ps.foldl (fun acc kv => dictInsert acc kv.1 kv.2) acc)).foldl max b =
        (ps.map Prod.fst).foldl max ((dictKeys acc).foldl max b) := by
  induction ps with
  | nil => intro acc; rfl
  | cons kv t ih =>
    intro acc
    simp only [List.foldl_cons, List.map_cons]
    rw [ih, foldl_max_keys_dictInsert]

theorem pyListMax_keys_dictOfPairs (ps : List (Nat × α)) :
    pyListMax (dictKeys (dictOfPairs ps)) = pyListMax (ps.map Prod.fst) := by
  simpa [pyListMax, dictOfPairs, dictKeys] using foldl_max_keys_fold_aux ps 1 []

theorem dictOfPairs_fold_aux (l : List (Nat × α)) :
    ∀ acc : List (Nat × α), (dictKeys l).Nodup →
      (∀ k ∈ dictKeys l, k ∉ dictKeys acc) →
      l.foldl (fun acc kv => dictInsert acc kv.1 kv.2) acc = acc ++ l := by
  induction l with
  | nil => intro acc _ _; simp
  | cons kv t ih =>
    intro acc hnd hdis
    have hk : kv.1 ∉ dictKeys acc := hdis kv.1 (by simp [dictKeys])
    have hcons : (kv.1 :: dictKeys t).Nodup := by simpa [dictKeys] using hnd
    have hnd' : (dictKeys t).Nodup := (List.nodup_cons.mp hcons).2
    have hhead : kv.1 ∉ dictKeys t := (List.nodup_cons.mp hcons).1
    have hdis' : ∀ k ∈ dictKeys t, k ∉ dictKeys (acc ++ [(kv.1, kv.2)]) := by
      intro k hkt
      rw [dictKeys_append]
      simp only [List.mem_append]
      rintro (hmem | hmem)
      · exact hdis k (by simp [dictKeys]; exact Or.inr (by simpa [dictKeys] using hkt)) hmem
      · simp [dictKeys] at hmem
        exact hhead (hmem ▸ hkt)
    simp only [List.foldl_cons]
    rw [dictInsert_of_not_mem _ hk, ih _ hnd' hdis']
    simp

theorem dictOfPairs_of_nodup {l : List (Nat × α)} (hnd : (dictKeys l).Nodup) :
    dictOfPairs l = l := by
  simpa [dictOfPairs] using dictOfPairs_fold_aux l [] hnd (by simp [dictKeys])

theorem dict_rebuild {l : List (Nat × α)} {key : α → Nat} {f : α → α}
    (hkey : ∀ kv ∈ l, key kv.2 = kv.1) (hf : ∀ kv ∈ l, f kv.2 = kv.2)
    (hnd : (dictKeys l).Nodup) :
    dictOfPairs ((dictValues l).map (fun a => (key a, f a))) = l := by
  have hmap : (dictValues l).map (fun a => (key a, f a)) = l := by
    rw [dictValues, List.map_map]
    have : l.map ((fun a => (key a, f a)) ∘ Prod.snd) = l.map id := by
      apply List.map_congr_left
      intro kv hm
      simp [Function.comp, hkey kv hm, hf kv hm]
    rw [this, List.map_id]
  rw [hmap]
  exact dictOfPairs_of_nodup hnd

/-! ### Lemmas about the operations -/

theorem Bill.from_dict_eq_self {b : Bill}
    (h : b.total_amount = calculate_total b.services_rendered) :
    Bill.from_dict b = b := by
  cases b with
  | mk bid pid items date total =>
    have hm : items.map Service.from_dict = items :=
      (List.map_congr_left (fun a _ => rfl)).trans (List.map_id _)
    simp only [Bill.from_dict, Bill.make, hm]
    simp at h
    simp [h]

theorem RegInv.insert {l : List (Nat × α)} {key : α → Nat} {n : Nat}
    (h : RegInv l key n) {v : α} (hv : key v = n) :
    RegInv (dictInsert l n v) key (n + 1) := by
  have hnotmem : n ∉ dictKeys l := fun hm => lt_irrefl n (h.lt_next n hm)
  rw [dictInsert_of_not_mem v hnotmem]
  refine ⟨?_, ?_, ?_, ?_, ?_⟩
  · intro kv hm
    rcases List.mem_append.mp hm with hm | hm
    · exact h.key_con kv hm
    · simp at hm
      simp [hm, hv]
  · rw [dictKeys_append]
    refine List.nodup_append.mpr ⟨h.nodup, by simp [dictKeys], ?_⟩
    intro a ha hmem
    simp [dictKeys] at hmem
    exact hnotmem (hmem ▸ ha)
  · intro k hk
    rw [dictKeys_append] at hk
    rcases List.mem_append.mp hk with hk | hk
    · exact lt_trans (h.lt_next k hk) (Nat.lt_succ_self n)
    · simp [dictKeys] at hk
      simp [hk]
  · intro _
    rw [dictKeys_append]
    have hmax : pyListMax (dictKeys l ++ dictKeys [(n, v)]) = n := by
      simp only [pyListMax, dictKeys, List.map_cons, List.map_nil, List.foldl_append,
        List.foldl_cons, List.foldl_nil]
      exact max_eq_right (foldl_max_le 1 h.one_le
        (fun x hx => Nat.le_of_lt (h.lt_next x hx)))
    rw [hmax]
  · exact Nat.le_succ_of_le h.one_le

theorem RegInv.of_nodup {l : List (Nat × α)} {key : α → Nat}
    (hkey : ∀ kv ∈ l, key kv.2 = kv.1) (hnd : (dictKeys l).Nodup) :
    RegInv l key (pyListMax (dictKeys l) + 1) := by
  refine ⟨hkey, hnd, ?_, fun _ => rfl, Nat.le_add_left 1 _⟩
  intro k hk
  exact Nat.lt_succ_of_le (le_foldl_max_of_mem hk 1)

theorem resolve_services_fold_aux (s : HospitalBillingSystem) (sids : List Nat) :
    ∀ acc : List Service,
      sids.foldl (fun acc s_id =>
        match get_service s s_id with
        | some service => acc ++ [service]
        | none => acc) acc = acc ++ sids.filterMap (get_service s) := by
  induction sids with
  | nil => intro acc; simp
  | cons i t ih =>
    intro acc
    simp only [List.foldl_cons, List.filterMap_cons]
    cases hget : get_service s i with
    | none => simp [ih]
    | some service => simp [ih]

theorem resolve_services_eq_filterMap (s : HospitalBillingSystem) (sids : List Nat) :
    resolve_services s sids = sids.filterMap (get_service s) := by
  simpa [resolve_services] using resolve_services_fold_aux s sids []

theorem resolve_services_of_all_unknown {s : HospitalBillingSystem} {sids : List Nat}
    (h : ∀ i ∈ sids, get_service s i = none) : resolve_services s sids = [] := by
  rw [resolve_services_eq_filterMap]
  exact List.filterMap_eq_nil_iff.mpr h

theorem create_bill_of_patient_not_found {s : HospitalBillingSystem} {pid : Nat}
    (sids : List Nat) (date : String) (h : dictContains s.patients pid = false) :
    create_bill s pid sids date = (s, none) := by
  simp [create_bill, h]

theorem create_bill_of_no_services {s : HospitalBillingSystem} {pid : Nat} {sids : List Nat}
    (date : String) (h1 : dictContains s.patients pid = true)
    (h2 : resolve_services s sids = []) :
    create_bill s pid sids date = (s, none) := by
  simp [create_bill, h1, h2]

theorem create_bill_of_services {s : HospitalBillingSystem} {pid : Nat} {sids : List Nat}
    (date : String) (h1 : dictContains s.patients pid = true)
    (h2 : resolve_services s sids ≠ []) :
    create_bill s pid sids date =
      ({ s with
          bills := dictInsert s.bills s.next_bill_id
            (Bill.make s.next_bill_id pid (resolve_services s sids) date)
          next_bill_id := s.next_bill_id + 1 },
        some (Bill.make s.next_bill_id pid (resolve_services s sids) date)) := by
  have he : (resolve_services s sids).isEmpty = false := by
    cases hr : resolve_services s sids with
    | nil => exact absurd hr h2
    | cons a t => rfl
  simp [create_bill, h1, he]

theorem load_save_eq {s : HospitalBillingSystem} (h : Inv s) :
    load_data (some (save_data s)) =
      { patients := s.patients, services := s.services, bills := s.bills
        next_patient_id := pyListMax (dictKeys s.patients) + 1
        next_service_id := pyListMax (dictKeys s.services) + 1
        next_bill_id := pyListMax (dictKeys s.bills) + 1 } := by
  obtain ⟨hp, hs, hb, hbt⟩ := h
  have tp : (dictValues s.patients).map Patient.to_dict = dictValues s.patients :=
    (List.map_congr_left (fun a _ => rfl)).trans (List.map_id _)
  have ts : (dictValues s.services).map Service.to_dict = dictValues s.services :=
    (List.map_congr_left (fun a _ => rfl)).trans (List.map_id _)
  have tb : (dictValues s.bills).map Bill.to_dict = dictValues s.bills :=
    (List.map_congr_left (fun a _ => rfl)).trans (List.map_id _)
  have e1 : dictOfPairs ((dictValues s.patients).map
      (fun p => (p.patient_id, Patient.from_dict p))) = s.patients :=
    dict_rebuild hp.key_con (fun kv _ => rfl) hp.nodup
  have e2 : dictOfPairs ((dictValues s.services).map
      (fun sv => (sv.service_id, Service.from_dict sv))) = s.services :=
    dict_rebuild hs.key_con (fun kv _ => rfl) hs.nodup
  have e3 : dictOfPairs ((dictValues s.bills).map
      (fun b => (b.bill_id, Bill.from_dict b))) = s.bills :=
    dict_rebuild hb.key_con (fun kv hm => Bill.from_dict_eq_self (hbt kv hm).1) hb.nodup
  simp only [load_data, save_data]
  rw [tp, ts, tb, e1, e2, e3]

/-! ### The invariant holds in every reachable state -/

theorem inv_load_none : Inv (load_data none) := by
  refine ⟨⟨?_, ?_, ?_, ?_, ?_⟩, ⟨?_, ?_, ?_, ?_, ?_⟩, ⟨?_, ?_, ?_, ?_, ?_⟩, ?_⟩ <;>
    simp [load_data, dictKeys]

theorem Inv.add_patient_inv {s : HospitalBillingSystem} (h : Inv s)
    (name contact : String) : Inv (add_patient s name contact).1 := by
  obtain ⟨hp, hs, hb, hbt⟩ := h
  exact ⟨hp.insert rfl, hs, hb, hbt⟩

theorem Inv.add_service_inv {s : HospitalBillingSystem} (h : Inv s)
    (name : String) (price : ℚ) : Inv (add_service s name price).1 := by
  obtain ⟨hp, hs, hb, hbt⟩ := h
  exact ⟨hp, hs.insert rfl, hb, hbt⟩

theorem Inv.create_bill_inv {s : HospitalBillingSystem} (h : Inv s)
    (pid : Nat) (sids : List Nat) (date : String) :
    Inv (create_bill s pid sids date).1 := by
  obtain ⟨hp, hs, hb, hbt⟩ := h
  cases h1 : dictContains s.patients pid with
  | false => rw [create_bill_of_patient_not_found sids date h1]; exact ⟨hp, hs, hb, hbt⟩
  | true =>
    by_cases h2 : resolve_services s sids = []
    · rw [create_bill_of_no_services date h1 h2]; exact ⟨hp, hs, hb, hbt⟩
    · rw [create_bill_of_services date h1 h2]
      refine ⟨hp, hs, hb.insert rfl, ?_⟩
      intro kv hm
      have hnotmem : s.next_bill_id ∉ dictKeys s.bills :=
        fun hmem => lt_irrefl _ (hb.lt_next _ hmem)
      rw [dictInsert_of_not_mem _ hnotmem] at hm
      rcases List.mem_append.mp hm with hm | hm
      · exact hbt kv hm
      · simp at hm
        subst hm
        exact ⟨rfl, h2⟩

theorem Inv.load_save_inv {s : HospitalBillingSystem} (h : Inv s) :
    Inv (load_data (some (save_data s))) := by
  rw [load_save_eq h]
  obtain ⟨hp, hs, hb, hbt⟩ := h
  exact ⟨RegInv.of_nodup hp.key_con hp.nodup, RegInv.of_nodup hs.key_con hs.nodup,
    RegInv.of_nodup hb.key_con hb.nodup, hbt⟩

theorem reachable_inv {s : HospitalBillingSystem} (h : Reachable s) : Inv s := by
  induction h with
  | fresh => exact inv_load_none
  | save_load _ ih => exact ih.load_save_inv
  | patient_step name contact _ ih => exact ih.add_patient_inv name contact
  | service_step name price _ ih => exact ih.add_service_inv name price
  | bill_step pid sids date _ ih => exact ih.create_bill_inv pid sids date

theorem range_shift (c n : Nat) :
    (List.range (n + 1)).map (fun i => c + i) = c :: (List.range n).map (fun i => c + 1 + i) := by
  rw [List.range_succ_eq_map, List.map_cons, List.map_map]
  refine congrArg₂ List.cons (by simp) ?_
  apply List.map_congr_left
  intro a _
  simp only [Function.comp_apply]
  omega

theorem add_patients_spec {s : HospitalBillingSystem} (h : Inv s)
    (entries : List (String × String)) :
    (add_patients s entries).next_patient_id = s.next_patient_id + entries.length ∧
    dictKeys (add_patients s entries).patients =
      dictKeys s.patients ++ (List.range entries.length).map (fun i => s.next_patient_id + i) := by
  induction entries generalizing s with
  | nil => simp [add_patients]
  | cons e t ih =>
    have hstep : add_patients s (e :: t) = add_patients (add_patient s e.1 e.2).1 t := rfl
    have hnotmem : s.next_patient_id ∉ dictKeys s.patients :=
      fun hm => lt_irrefl _ (h.1.lt_next _ hm)
    have hkeys : dictKeys (add_patient s e.1 e.2).1.patients =
        dictKeys s.patients ++ [s.next_patient_id] := by
      rw [show (add_patient s e.1 e.2).1.patients =
        dictInsert s.patients s.next_patient_id
          { patient_id := s.next_patient_id, name := e.1, contact := e.2 } from rfl]
      rw [dictInsert_of_not_mem _ hnotmem, dictKeys_append]
      rfl
    obtain ⟨ihc, ihk⟩ := ih (h.add_patient_inv e.1 e.2)
    rw [hstep]
    constructor
    · rw [ihc]
      show s.next_patient_id + 1 + t.length = _
      simp [List.length_cons]
      omega
    · rw [ihk, hkeys]
      show dictKeys s.patients ++ [s.next_patient_id] ++
          (List.range t.length).map (fun i => s.next_patient_id + 1 + i) = _
      rw [List.append_assoc, List.singleton_append, List.length_cons, range_shift]

theorem add_services_spec {s : HospitalBillingSystem} (h : Inv s)
    (entries : List (String × ℚ)) :
    (add_services s entries).next_service_id = s.next_service_id + entries.length ∧
    dictKeys (add_services s entries).services =
      dictKeys s.services ++ (List.range entries.length).map (fun i => s.next_service_id + i) := by
  induction entries generalizing s with
  | nil => simp [add_services]
  | cons e t ih =>
    have hstep : add_services s (e :: t) = add_services (add_service s e.1 e.2).1 t := rfl
    have hnotmem : s.next_service_id ∉ dictKeys s.services :=
      fun hm => lt_irrefl _ (h.2.1.lt_next _ hm)
    have hkeys : dictKeys (add_service s e.1 e.2).1.services =
        dictKeys s.services ++ [s.next_service_id] := by
      rw [show (add_service s e.1 e.2).1.services =
        dictInsert s.services s.next_service_id
          { service_id := s.next_service_id, name := e.1, price := e.2 } from rfl]
      rw [dictInsert_of_not_mem _ hnotmem, dictKeys_append]
      rfl
    obtain ⟨ihc, ihk⟩ := ih (h.add_service_inv e.1 e.2)
    rw [hstep]
    constructor
    · rw [ihc]
      show s.next_service_id + 1 + t.length = _
      simp [List.length_cons]
      omega
    · rw [ihk, hkeys]
      show dictKeys s.services ++ [s.next_service_id] ++
          (List.range t.length).map (fun i => s.next_service_id + 1 + i) = _
      rw [List.append_assoc, List.singleton_append, List.length_cons, range_shift]

theorem create_bill_success_spec {s : HospitalBillingSystem} (h : Inv s)
    {pid : Nat} {sids : List Nat} {date : String} {t : HospitalBillingSystem} {b : Bill}
    (heq : create_bill s pid sids date = (t, some b)) :
    b = Bill.make s.next_bill_id pid (resolve_services s sids) date ∧
    t.next_bill_id = s.next_bill_id + 1 ∧
    dictKeys t.bills = dictKeys s.bills ++ [s.next_bill_id] := by
  cases h1 : dictContains s.patients pid with
  | false =>
    rw [create_bill_of_patient_not_found sids date h1] at heq
    exact absurd (congrArg Prod.snd heq) (by simp)
  | true =>
    by_cases h2 : resolve_services s sids = []
    · rw [create_bill_of_no_services date h1 h2] at heq
      exact absurd (congrArg Prod.snd heq) (by simp)
    · rw [create_bill_of_services date h1 h2] at heq
      have hb : b = Bill.make s.next_bill_id pid (resolve_services s sids) date :=
        (Option.some.injEq _ _ ▸ congrArg Prod.snd heq).symm
      have ht := congrArg Prod.fst heq
      simp only at ht
      have hnotmem : s.next_bill_id ∉ dictKeys s.bills :=
        fun hm => lt_irrefl _ (h.2.2.1.lt_next _ hm)
      refine ⟨hb, ?_, ?_⟩
      · rw [← ht]
      · rw [← ht]
        show dictKeys (dictInsert s.bills s.next_bill_id _) = _
        rw [dictInsert_of_not_mem _ hnotmem, dictKeys_append]
        rfl

theorem create_bill_some_eq {s : HospitalBillingSystem} {pid : Nat} {sids : List Nat}
    {date : String} {t : HospitalBillingSystem} {b : Bill}
    (heq : create_bill s pid sids date = (t, some b)) :
    b = Bill.make s.next_bill_id pid (resolve_services s sids) date := by
  cases h1 : dictContains s.patients pid with
  | false =>
    rw [create_bill_of_patient_not_found sids date h1] at heq
    exact absurd (congrArg Prod.snd heq) (by simp)
  | true =>
    by_cases h2 : resolve_services s sids = []
    · rw [create_bill_of_no_services date h1 h2] at heq
      exact absurd (congrArg Prod.snd heq) (by simp)
    · rw [create_bill_of_services date h1 h2] at heq
      have hb := congrArg Prod.snd heq
      simp only at hb
      exact (Option.some.inj hb).symm

/-! ### The claims -/

theorem demoStore_reachable : Reachable demoStore :=
  Reachable.service_step "Consult" 50
    (Reachable.service_step "X-Ray" 100
      (Reachable.patient_step "John" "555-0100" Reachable.fresh))

theorem billStore_reachable : Reachable billStore :=
  Reachable.bill_step 1 [1] "2024-01-02 11:00:00" demoStore_reachable

/-- C1, counterexample to the claim as stated: the fresh store (backing file
absent) is reachable through the public operations, has all three next-id
counters equal to 1, yet saving it and reloading the saved file yields
counters equal to 2, so the round-trip does not preserve the counters on
this reachable state. -/
theorem C1_roundtrip_counterexample :
    (load_data (some (save_data (load_data none)))).next_patient_id = 2 ∧
    (load_data none).next_patient_id = 1 ∧
    load_data (some (save_data (load_data none))) ≠ load_data none := by
  refine ⟨rfl, rfl, ?_⟩
  decide

/-- C1 (amended): for every store state reachable by the public operations,
saving and then loading the saved file preserves all patients, services and
bills field-for-field (including each bill's embedded line items, date
string and total amount); each next-id counter is preserved whenever the
corresponding registry is non-empty, while the counter of an empty registry
loads as 2 (which differs from the fresh store's 1). -/
theorem C1_roundtrip {s : HospitalBillingSystem} (h : Reachable s) :
    (load_data (some (save_data s))).patients = s.patients ∧
    (load_data (some (save_data s))).services = s.services ∧
    (load_data (some (save_data s))).bills = s.bills ∧
    (s.patients ≠ [] →
      (load_data (some (save_data s))).next_patient_id = s.next_patient_id) ∧
    (s.services ≠ [] →
      (load_data (some (save_data s))).next_service_id = s.next_service_id) ∧
    (s.bills ≠ [] →
      (load_data (some (save_data s))).next_bill_id = s.next_bill_id) ∧
    (s.patients = [] → (load_data (some (save_data s))).next_patient_id = 2) ∧
    (s.services = [] → (load_data (some (save_data s))).next_service_id = 2) ∧
    (s.bills = [] → (load_data (some (save_data s))).next_bill_id = 2) := by
  have hi := reachable_inv h
  have he := load_save_eq hi
  obtain ⟨hp, hs, hb, _⟩ := hi
  rw [he]
  refine ⟨rfl, rfl, rfl, ?_, ?_, ?_, ?_, ?_, ?_⟩
  · intro hne; exact (hp.next_eq hne).symm
  · intro hne; exact (hs.next_eq hne).symm
  · intro hne; exact (hb.next_eq hne).symm
  · intro hemp; rw [hemp]; rfl
  · intro hemp; rw [hemp]; rfl
  · intro hemp; rw [hemp]; rfl

/-- C1 witness: the amended round-trip statement instantiated at the
reachable store `billStore`, whose three registries are all non-empty. -/
theorem C1_roundtrip_witness :
    (load_data (some (save_data billStore))).patients = billStore.patients ∧
    (load_data (some (save_data billStore))).services = billStore.services ∧
    (load_data (some (save_data billStore))).bills = billStore.bills ∧
    (billStore.patients ≠ [] →
      (load_data (some (save_data billStore))).next_patient_id = billStore.next_patient_id) ∧
    (billStore.services ≠ [] →
      (load_data (some (save_data billStore))).next_service_id = billStore.next_service_id) ∧
    (billStore.bills ≠ [] →
      (load_data (some (save_data billStore))).next_bill_id = billStore.next_bill_id) ∧
    (billStore.patients = [] → (load_data (some (save_data billStore))).next_patient_id = 2) ∧
    (billStore.services = [] → (load_data (some (save_data billStore))).next_service_id = 2) ∧
    (billStore.bills = [] → (load_data (some (save_data billStore))).next_bill_id = 2) :=
  C1_roundtrip billStore_reachable

/-- C2, counterexample to the claim as stated: in the spec's own example
store (Service 1 priced 100.0 and Service 2 priced 50.0),
`create_bill(1, [1, 2, 2])` produces three line items whose prices sum to
100 + 50 + 50 = 200, not the claimed 250. -/
theorem C2_create_bill_counterexample :
    ((create_bill demoStore 1 [1, 2, 2] "2024-01-01 10:00:00").2.map
      Bill.total_amount) = some 200 ∧ (200 : ℚ) ≠ 250 := by
  constructor
  · norm_num [demoStore, create_bill, resolve_services, add_service, add_patient, load_data,
      get_service, dictGet, dictContains, dictInsert, Bill.make, calculate_total]
  · norm_num

/-- C2 (amended): when the patient exists and at least one service id
resolves, `create_bill` returns a bill whose line items are exactly the
resolved services in the given order — unresolved ids are skipped without
aborting and duplicates are kept, one line item per occurrence — and whose
total is the sum of their prices in that order, double-counting repeats.
In the spec's example store, `create_bill(1, [1, 2, 2])` yields 3 line items
and total 200.0 (not 250.0 as the claim stated). -/
theorem C2_create_bill {s : HospitalBillingSystem} {patient_id : Nat}
    {service_ids : List Nat} (date : String)
    (h1 : dictContains s.patients patient_id = true)
    (h2 : service_ids.filterMap (get_service s) ≠ []) :
    (create_bill s patient_id service_ids date).2 =
      some { bill_id := s.next_bill_id, patient_id := patient_id
             services_rendered := service_ids.filterMap (get_service s)
             bill_date := date
             total_amount := ((service_ids.filterMap (get_service s)).map Service.price).sum } := by
  have hr : resolve_services s service_ids = service_ids.filterMap (get_service s) :=
    resolve_services_eq_filterMap s service_ids
  have h2' : resolve_services s service_ids ≠ [] := by rw [hr]; exact h2
  rw [create_bill_of_services date h1 h2']
  simp [Bill.make, calculate_total, hr]

/-- C2 witness: the amended statement at the spec's example store, showing
the three line items (service 2 twice) and the total 200. -/
theorem C2_create_bill_witness :
    dictContains demoStore.patients 1 = true ∧
    [1, 2, 2].filterMap (get_service demoStore) ≠ [] ∧
    (create_bill demoStore 1 [1, 2, 2] "2024-01-01 10:00:00").2 =
      some { bill_id := 1, patient_id := 1
             services_rendered := [{ service_id := 1, name := "X-Ray", price := 100 },
               { service_id := 2, name := "Consult", price := 50 },
               { service_id := 2, name := "Consult", price := 50 }]
             bill_date := "2024-01-01 10:00:00", total_amount := 200 } := by
  refine ⟨by decide, by decide, ?_⟩
  rw [C2_create_bill "2024-01-01 10:00:00" (by decide) (by decide)]
  have hf : [1, 2, 2].filterMap (get_service demoStore) =
      [{ service_id := 1, name := "X-Ray", price := 100 },
       { service_id := 2, name := "Consult", price := 50 },
       { service_id := 2, name := "Consult", price := 50 }] := by decide
  rw [hf]
  norm_num [List.sum_cons]
  decide

/-- C3, counterexample to the claim as stated: loading a file whose only
bill stores `total_amount` 999 over line items summing to 150 yields a bill
whose `total_amount` is the recomputed 150, not the stored 999 — the stored
value is not trusted. -/
theorem C3_trusted_total_counterexample :
    dictGet (load_data (some tamperedFile)).bills 7 =
      some { bill_id := 7, patient_id := 1
             services_rendered := [{ service_id := 1, name := "X-Ray", price := 150 }]
             bill_date := "2024-01-01 10:00:00", total_amount := 150 } ∧
    tamperedBill.total_amount = 999 ∧ (150 : ℚ) ≠ 999 := by
  refine ⟨?_, rfl, by norm_num⟩
  norm_num [load_data, tamperedFile, tamperedBill, dictOfPairs, dictInsert, dictContains,
    dictGet, Bill.from_dict, Bill.make, Service.from_dict, calculate_total]

/-- C3 (amended): on load, a bill's `total_amount` is recomputed from the
embedded line items by the `Bill` constructor; the stored independent
`total_amount` field of the file is ignored, so whenever the stored value
differs from the sum of the line-item prices, the loaded bill's
`total_amount` is the recomputed sum and differs from the stored value. -/
theorem C3_load_recomputes_total (d : Bill) :
    (Bill.from_dict d).total_amount = calculate_total d.services_rendered ∧
    (Bill.from_dict d).services_rendered = d.services_rendered ∧
    (d.total_amount ≠ calculate_total d.services_rendered →
      (Bill.from_dict d).total_amount ≠ d.total_amount) := by
  have hm : d.services_rendered.map Service.from_dict = d.services_rendered :=
    (List.map_congr_left (fun a _ => rfl)).trans (List.map_id _)
  have h1 : (Bill.from_dict d).total_amount = calculate_total d.services_rendered := by
    show calculate_total (d.services_rendered.map Service.from_dict) = _
    rw [hm]
  refine ⟨h1, hm, ?_⟩
  intro hne heq
  exact hne (heq.symm.trans h1)

/-- C3 witness for the amended statement's conditional part, at the
tampered bill (stored total 999, recomputed total 150). -/
theorem C3_load_recomputes_total_witness :
    (Bill.from_dict tamperedBill).total_amount = calculate_total tamperedBill.services_rendered ∧
    tamperedBill.total_amount ≠ calculate_total tamperedBill.services_rendered ∧
    (Bill.from_dict tamperedBill).total_amount ≠ tamperedBill.total_amount := by
  have hne : tamperedBill.total_amount ≠ calculate_total tamperedBill.services_rendered := by
    norm_num [tamperedBill, calculate_total]
  exact ⟨(C3_load_recomputes_total tamperedBill).1, hne,
    (C3_load_recomputes_total tamperedBill).2.2 hne⟩

/-- C4: `create_bill` with a patient id absent from the patient registry
returns the failure result `None` and leaves the whole store — bill
registry, next-bill-id counter, patient and service registries — exactly as
it was. -/
theorem C4_unknown_patient {s : HospitalBillingSystem} {pid : Nat} (sids : List Nat)
    (date : String) (h : dictContains s.patients pid = false) :
    create_bill s pid sids date = (s, none) :=
  create_bill_of_patient_not_found sids date h

/-- C4 witness: patient 99 does not exist in the example store, and
`create_bill` there returns `None` with the store unchanged. -/
theorem C4_unknown_patient_witness :
    dictContains demoStore.patients 99 = false ∧
    create_bill demoStore 99 [1] "2024-01-03 09:00:00" = (demoStore, none) :=
  ⟨by decide, C4_unknown_patient [1] "2024-01-03 09:00:00" (by decide)⟩

/-- C5: when the patient exists but none of the given service ids resolves,
`create_bill` returns the failure result `None` with the store — including
the next-bill-id counter — unchanged; consequently, every bill stored in
the registry of any reachable state has a non-empty line-item list. -/
theorem C5_no_valid_services :
    (∀ (s : HospitalBillingSystem) (pid : Nat) (sids : List Nat) (date : String),
      dictContains s.patients pid = true →
      (∀ i ∈ sids, get_service s i = none) →
      create_bill s pid sids date = (s, none)) ∧
    (∀ s : HospitalBillingSystem, Reachable s → ∀ kv ∈ s.bills,
      kv.2.services_rendered ≠ []) := by
  constructor
  · intro s pid sids date h1 h2
    exact create_bill_of_no_services date h1 (resolve_services_of_all_unknown h2)
  · intro s h kv hm
    exact ((reachable_inv h).2.2.2 kv hm).2

/-- C5 witness: in the example store, service id 99 is unknown, so
`create_bill(1, [99])` fails without touching the store; and the reachable
store `billStore` has only bills with non-empty line items. -/
theorem C5_no_valid_services_witness :
    (dictContains demoStore.patients 1 = true ∧
      (∀ i ∈ [99], get_service demoStore i = none) ∧
      create_bill demoStore 1 [99] "2024-03-03 08:00:00" = (demoStore, none)) ∧
    (Reachable billStore ∧ ∀ kv ∈ billStore.bills, kv.2.services_rendered ≠ []) := by
  refine ⟨⟨by decide, by decide, ?_⟩, billStore_reachable, ?_⟩
  · exact C5_no_valid_services.1 demoStore 1 [99] "2024-03-03 08:00:00" (by decide) (by decide)
  · exact C5_no_valid_services.2 billStore billStore_reachable

/-- C6: after a load from an existing file, each next-id counter equals
`max(ids of that type in the file, 1) + 1` (so a file with empty arrays
yields counters equal to 2), and loading when the file does not exist gives
empty registries with all counters 1 — not an error. -/
theorem C6_load_counters :
    (∀ d : SaveData,
      (load_data (some d)).next_patient_id =
        pyListMax (d.patients.map Patient.patient_id) + 1 ∧
      (load_data (some d)).next_service_id =
        pyListMax (d.services.map Service.service_id) + 1 ∧
      (load_data (some d)).next_bill_id =
        pyListMax (d.bills.map Bill.bill_id) + 1) ∧
    load_data (some { patients := [], services := [], bills := [] }) =
      { patients := [], services := [], bills := [], next_patient_id := 2
        next_service_id := 2, next_bill_id := 2 } ∧
    load_data none =
      { patients := [], services := [], bills := [], next_patient_id := 1
        next_service_id := 1, next_bill_id := 1 } := by
  refine ⟨?_, by decide, rfl⟩
  intro d
  refine ⟨?_, ?_, ?_⟩ <;>
  · simp [load_data, pyListMax_keys_dictOfPairs, List.map_map, Function.comp]
    exact congrArg pyListMax (List.map_congr_left fun a _ => rfl)

/-- C7: starting from any reachable state, iterating `add_patient` assigns
the consecutive key block `next, next+1, ...` with the counter advancing by
exactly the number of calls (strictly increasing ids, no gaps); the same
holds for `add_service`; a successful `create_bill` assigns the current
next-bill-id to the new bill and increments that counter by exactly 1; and
on a fresh store all three counters start at 1. -/
theorem C7_id_monotonic {s : HospitalBillingSystem} (h : Reachable s) :
    (∀ entries : List (String × String),
      (add_patients s entries).next_patient_id = s.next_patient_id + entries.length ∧
      dictKeys (add_patients s entries).patients =
        dictKeys s.patients ++ (List.range entries.length).map (fun i => s.next_patient_id + i)) ∧
    (∀ entries : List (String × ℚ),
      (add_services s entries).next_service_id = s.next_service_id + entries.length ∧
      dictKeys (add_services s entries).services =
        dictKeys s.services ++ (List.range entries.length).map (fun i => s.next_service_id + i)) ∧
    (∀ (pid : Nat) (sids : List Nat) (date : String) (t : HospitalBillingSystem) (b : Bill),
      create_bill s pid sids date = (t, some b) →
      b.bill_id = s.next_bill_id ∧ t.next_bill_id = s.next_bill_id + 1 ∧
      dictKeys t.bills = dictKeys s.bills ++ [s.next_bill_id]) ∧
    (load_data none).next_patient_id = 1 ∧ (load_data none).next_service_id = 1 ∧
    (load_data none).next_bill_id = 1 := by
  have hi := reachable_inv h
  refine ⟨fun entries => add_patients_spec hi entries,
    fun entries => add_services_spec hi entries, ?_, rfl, rfl, rfl⟩
  intro pid sids date t b heq
  obtain ⟨hb, hc, hk⟩ := create_bill_success_spec hi heq
  exact ⟨by rw [hb]; rfl, hc, hk⟩

/-- C7 witness: two `add_patient` calls on the reachable example store
append keys 2 and 3, and the successful `create_bill` behind `billStore`
assigned bill id 1 and advanced the bill counter to 2. -/
theorem C7_id_monotonic_witness :
    ((add_patients demoStore [("Ann", "555-1"), ("Bob", "555-2")]).next_patient_id =
        demoStore.next_patient_id + 2 ∧
      dictKeys (add_patients demoStore [("Ann", "555-1"), ("Bob", "555-2")]).patients =
        dictKeys demoStore.patients ++
          (List.range 2).map (fun i => demoStore.next_patient_id + i)) ∧
    (billStore.next_bill_id = demoStore.next_bill_id + 1 ∧
      dictKeys billStore.bills = dictKeys demoStore.bills ++ [demoStore.next_bill_id]) := by
  have heq : create_bill demoStore 1 [1] "2024-01-02 11:00:00" =
      (billStore, some (Bill.make demoStore.next_bill_id 1
        (resolve_services demoStore [1]) "2024-01-02 11:00:00")) := by
    exact create_bill_of_services "2024-01-02 11:00:00" (by decide) (by decide)
  exact ⟨(C7_id_monotonic demoStore_reachable).1 [("Ann", "555-1"), ("Bob", "555-2")],
    ((C7_id_monotonic demoStore_reachable).2.2.1 1 [1] "2024-01-02 11:00:00"
      billStore _ heq).2⟩

/-- C8, counterexample to the claim as stated: the Python `add_patient`
stores the new patient (retrievable under the freshly assigned id 1) but
has no return statement, so its return value is `None`, not the new
`Patient`. -/
theorem C8_add_patient_counterexample :
    (add_patient (load_data none) "Alice" "555-0911").2 = none ∧
    dictGet (add_patient (load_data none) "Alice" "555-0911").1.patients 1 =
      some { patient_id := 1, name := "Alice", contact := "555-0911" } := by
  exact ⟨rfl, by decide⟩

/-- C8 (amended): `add_patient(name, contact)` always succeeds — no input
is rejected: it stores a new `Patient` with exactly the next patient id,
the given name and the given contact in the registry (retrievable under
that id), increments the counter by 1, and leaves the other registries
untouched; its Python return value is `None` (a confirmation is printed),
not the new `Patient`. -/
theorem C8_add_patient (s : HospitalBillingSystem) (name contact : String) :
    (add_patient s name contact).1.patients =
      dictInsert s.patients s.next_patient_id
        { patient_id := s.next_patient_id, name := name, contact := contact } ∧
    dictGet (add_patient s name contact).1.patients s.next_patient_id =
      some { patient_id := s.next_patient_id, name := name, contact := contact } ∧
    (add_patient s name contact).1.next_patient_id = s.next_patient_id + 1 ∧
    (add_patient s name contact).1.services = s.services ∧
    (add_patient s name contact).1.bills = s.bills ∧
    (add_patient s name contact).2 = none :=
  ⟨rfl, dictGet_dictInsert_self _ _, rfl, rfl, rfl, rfl⟩

/-- C9: a bill's line items are value snapshots taken at billing time: the
result of `get_bill` depends only on the bill registry, and the operations
that later modify the patient or service registries (`add_patient`,
`add_service`) leave the bill registry — hence every stored bill's line
items and total — unchanged.  No public operation mutates a stored service
in place, so no later registry change can alter an existing bill. -/
theorem C9_bill_snapshot :
    (∀ s t : HospitalBillingSystem, s.bills = t.bills →
      ∀ bid, get_bill s bid = get_bill t bid) ∧
    (∀ (s : HospitalBillingSystem) (name : String) (price : ℚ),
      (add_service s name price).1.bills = s.bills) ∧
    (∀ (s : HospitalBillingSystem) (name contact : String),
      (add_patient s name contact).1.bills = s.bills) := by
  refine ⟨?_, fun s n p => rfl, fun s n c => rfl⟩
  intro s t h bid
  simp [get_bill, h]

/-- C9 witness: adding a new service to `billStore` (which holds one bill)
leaves the bill registry identical, so `get_bill` returns the same bill,
line items and total included. -/
theorem C9_bill_snapshot_witness :
    billStore.bills = (add_service billStore "MRI" 300).1.bills ∧
    get_bill billStore 1 = get_bill (add_service billStore "MRI" 300).1 1 :=
  ⟨rfl, C9_bill_snapshot.1 billStore (add_service billStore "MRI" 300).1 rfl 1⟩

/-- C10 (implicit): every `Bill` ever constructed — through the constructor,
through `create_bill`, or through `from_dict` during a load — satisfies
`total_amount = calculate_total services_rendered`; in particular every
bill of a reachable store does, and a loaded bill satisfies it even when
the file's stored `total_amount` (here 500) disagrees with the sum of its
line items (here 30). -/
theorem C10_bill_total_invariant :
    (∀ (bid pid : Nat) (items : List Service) (date : String),
      (Bill.make bid pid items date).total_amount = calculate_total items) ∧
    (∀ d : Bill, (Bill.from_dict d).total_amount =
      calculate_total (Bill.from_dict d).services_rendered) ∧
    (∀ (s : HospitalBillingSystem) (pid : Nat) (sids : List Nat) (date : String)
        (t : HospitalBillingSystem) (b : Bill),
      create_bill s pid sids date = (t, some b) →
      b.total_amount = calculate_total b.services_rendered) ∧
    (∀ s : HospitalBillingSystem, Reachable s → ∀ kv ∈ s.bills,
      kv.2.total_amount = calculate_total kv.2.services_rendered) ∧
    (dictGet (load_data (some driftFile)).bills 3).map Bill.total_amount = some 30 ∧
    driftBill.total_amount = 500 := by
  refine ⟨fun bid pid items date => rfl, fun d => rfl, ?_, ?_, ?_, rfl⟩
  · intro s pid sids date t b heq
    rw [create_bill_some_eq heq]
    rfl
  · intro s h kv hm
    exact ((reachable_inv h).2.2.2 kv hm).1
  · norm_num [load_data, driftFile, driftBill, dictOfPairs, dictInsert, dictContains,
      dictGet, Bill.from_dict, Bill.make, Service.from_dict, calculate_total]

/-- C10 witness: the successful `create_bill` on the example store returns
a bill satisfying the total invariant, and every bill of the reachable
store `billStore` satisfies it. -/
theorem C10_bill_total_invariant_witness :
    create_bill demoStore 1 [2] "2024-01-05 12:00:00" =
      ((create_bill demoStore 1 [2] "2024-01-05 12:00:00").1,
        some (Bill.make demoStore.next_bill_id 1 (resolve_services demoStore [2])
          "2024-01-05 12:00:00")) ∧
    (Bill.make demoStore.next_bill_id 1 (resolve_services demoStore [2])
        "2024-01-05 12:00:00").total_amount =
      calculate_total (Bill.make demoStore.next_bill_id 1 (resolve_services demoStore [2])
        "2024-01-05 12:00:00").services_rendered ∧
    Reachable billStore ∧
    (∀ kv ∈ billStore.bills, kv.2.total_amount = calculate_total kv.2.services_rendered) := by
  have heq : create_bill demoStore 1 [2] "2024-01-05 12:00:00" =
      ((create_bill demoStore 1 [2] "2024-01-05 12:00:00").1,
        some (Bill.make demoStore.next_bill_id 1 (resolve_services demoStore [2])
          "2024-01-05 12:00:00")) := by
    exact create_bill_of_services "2024-01-05 12:00:00" (by decide) (by decide)
  refine ⟨heq, ?_, billStore_reachable, ?_⟩
  · exact C10_bill_total_invariant.2.2.1 demoStore 1 [2] "2024-01-05 12:00:00" _ _ heq
  · exact C10_bill_total_invariant.2.2.2.1 billStore billStore_reachable

end HospitalBilling
